import Mathlib

/-
Verification of the Wikipedia country-outline service (src/main.py).

The development shallowly embeds the three stages of the service:
the URL builder of fetch_wikipedia_page (main.py lines 19-31), the
heading extractor extract_headings (lines 33-51), the renderer
generate_markdown_outline (lines 53-66), and the request handler
get_country_outline (lines 68-97).  Python strings are modelled as
Lean String values; Python exceptions are modelled with Except; the
external collaborators (the BeautifulSoup html.parser tag-tree parser
and the network fetch) are modelled from the specification, as noted
on each of their definitions.
-/

/-! Python string primitives, modelled byte-for-byte from CPython
    semantics for the operations main.py uses: str.strip(), the
    substring test with the in operator, and str.replace(). -/

/-- The whitespace set of Python str.strip() for ASCII text. -/
def isPySpace (c : Char) : Bool :=
  c == ' ' || c == '\t' || c == '\n' || c == '\x0d' || c == '\x0c' || c == '\x0b'

/-- Python str.strip() on a list of characters: drop whitespace from
    both ends. -/
def pyStripL (l : List Char) : List Char :=
  ((l.dropWhile isPySpace).reverse.dropWhile isPySpace).reverse

/-- Python str.strip(). -/
def pyStrip (s : String) : String :=
  String.mk (pyStripL s.data)

/-- Decidable check that the first list is an initial segment of the
    second. -/
def listPre : List Char → List Char → Bool
  | [], _ => true
  | _ :: _, [] => false
  | a :: as, b :: bs => a == b && listPre as bs

/-- Python substring membership, pat in s, on lists of characters. -/
def hasSubL (pat : List Char) : List Char → Bool
  | [] => pat.isEmpty
  | c :: t => listPre pat (c :: t) || hasSubL pat t

/-- Python substring membership, pat in s. -/
def hasSub (pat s : String) : Bool :=
  hasSubL pat.data s.data

/-- Python str.replace(pat, rep) on lists of characters, fuel-indexed
    so that it is structurally recursive; replaces non-overlapping
    occurrences left to right.  Faithful for non-empty patterns, which
    is the only way main.py calls it. -/
def pyReplaceFuel (pat rep : List Char) : Nat → List Char → List Char
  | _, [] => []
  | 0, l => l
  | fuel + 1, c :: t =>
    if pat ≠ [] ∧ listPre pat (c :: t) = true then
      rep ++ pyReplaceFuel pat rep fuel (t.drop (pat.length - 1))
    else
      c :: pyReplaceFuel pat rep fuel t

/-- Python s.replace(pat, rep). -/
def pyReplace (s pat rep : String) : String :=
  String.mk (pyReplaceFuel pat.data rep.data s.data.length s.data)

/-- Python single-character indexing s[i], which raises IndexError
    when out of range; the failure is modelled with Except. -/
def charAt (s : String) (i : Nat) : Except String Char :=
  match s.data.get? i with
  | some c => Except.ok c
  | none => Except.error "string index out of range"

/-- Python int() applied to a one-character string, as in
    int(tag.name[1]) at main.py line 41; raises ValueError on a
    non-digit. -/
def pyIntOfChar (c : Char) : Except String Nat :=
  if c.isDigit then Except.ok (c.toNat - 48)
  else Except.error "invalid literal for int() with base 10"

example : pyStrip "  History  " = "History" := rfl
example : hasSub "[edit]" "History[edit]" = true := rfl
example : hasSub "[edit]" "History" = false := rfl
example : pyReplace "History[edit]" "[edit]" "" = "History" := rfl
example : pyReplace "a b c" " " "_" = "a_b_c" := rfl
example : charAt "h2" 1 = Except.ok '2' := rfl
example : pyIntOfChar '2' = Except.ok 2 := rfl

/-! The tag tree.  BeautifulSoup parses HTML into a tree whose nodes
    are tags (with a lowercased name and children) or navigable
    strings; both the tree shape and the tolerant parser below are
    modelled from the specification, since the parsing library is an
    external collaborator of main.py. -/

/-- A node of the parsed tag tree: a text node or an element with a
    tag name and children. -/
inductive Node where
  | text (s : String) : Node
  | elem (name : String) (children : List Node) : Node

/-- The tag name of a node, as in tag.name; text nodes never reach
    the places where a name is read. -/
def Node.name : Node → String
  | .text _ => ""
  | .elem nm _ => nm

mutual
/-- tag.get_text(): all descendant text concatenated in document
    order. -/
def get_text : Node → String
  | .text s => s
  | .elem _ cs => getTextL cs
def getTextL : List Node → String
  | [] => ""
  | n :: ns => get_text n ++ getTextL ns
end

/-- Whether a node is an element whose tag name is in the given
    list. -/
def isTagIn (names : List String) : Node → Bool
  | .text _ => false
  | .elem nm _ => names.contains nm

mutual
/-- soup.find_all(names) restricted to one node: the matching
    elements among the node and its descendants, in document order
    (pre-order, depth-first). -/
def findAllN (names : List String) : Node → List Node
  | .text _ => []
  | .elem nm cs =>
    (if names.contains nm then [Node.elem nm cs] else []) ++ findAllL names cs
def findAllL (names : List String) : List Node → List Node
  | [] => []
  | n :: ns => findAllN names n ++ findAllL names ns
end

/-- soup.find_all(names) over the whole parsed document. -/
def find_all (names : List String) (doc : List Node) : List Node :=
  findAllL names doc

mutual
/-- The complete list of nodes of a tree in document order
    (pre-order, depth-first); used to state that find_all preserves
    document order. -/
def docOrderN : Node → List Node
  | .text s => [Node.text s]
  | .elem nm cs => Node.elem nm cs :: docOrderL cs
def docOrderL : List Node → List Node
  | [] => []
  | n :: ns => docOrderN n ++ docOrderL ns
end

/-! Modelled from the spec: BeautifulSoup(html_content, html.parser)
    at main.py line 35 is an external, lenient HTML parser; per the
    specification it parses the HTML into a tag tree and handles
    malformed markup without raising.  The model below is a total
    tokenizer and stack builder: tag names are lowercased, markup
    that never closes degrades to text, stray close tags are
    ignored, and elements still open at end of input are closed. -/

/-- A lexical token of the HTML scanner. -/
inductive Tok where
  | openTag (name : String) (selfClosing : Bool)
  | closeTag (name : String)
  | textTok (s : String)
  | skipTok

/-- The tag name at the front of a tag body: characters up to
    whitespace, slash or the closing angle bracket, lowercased. -/
def tagNameOf (body : List Char) : String :=
  String.mk ((body.takeWhile (fun c => !isPySpace c && c != '/' && c != '>')).map Char.toLower)

/-- Classify the body of one angle-bracket group as a token; comment
    and declaration groups are skipped. -/
def tokOfTagBody (body : List Char) : Tok :=
  match body with
  | [] => Tok.skipTok
  | c :: rest =>
    if c == '/' then Tok.closeTag (tagNameOf rest)
    else if c == '!' || c == '?' then Tok.skipTok
    else Tok.openTag (tagNameOf (c :: rest)) (body.getLast? == some '/')

/-- Fuel-indexed scanner: alternately read runs of text and
    angle-bracket groups; an unterminated group degrades to text. -/
def tokenizeFuel : Nat → List Char → List Tok
  | _, [] => []
  | 0, cs => [Tok.textTok (String.mk cs)]
  | fuel + 1, cs =>
    let txt := cs.takeWhile (fun c => c != '<')
    let rest := cs.dropWhile (fun c => c != '<')
    let pre := if txt.isEmpty then ([] : List Tok) else [Tok.textTok (String.mk txt)]
    match rest with
    | [] => pre
    | lt :: rest2 =>
      let body := rest2.takeWhile (fun c => c != '>')
      let rest3 := rest2.dropWhile (fun c => c != '>')
      match rest3 with
      | [] => pre ++ [Tok.textTok (String.mk (lt :: rest2))]
      | _ :: rest4 => pre ++ [tokOfTagBody body] ++ tokenizeFuel fuel rest4

/-- Scan a string into tokens. -/
def tokenize (s : String) : List Tok :=
  tokenizeFuel s.data.length s.data

/-- Attach a finished node to the element currently open, or to the
    root accumulator; both accumulators are kept reversed. -/
def insertNode (n : Node) (stack : List (String × List Node)) (root : List Node) :
    List (String × List Node) × List Node :=
  match stack with
  | [] => ([], n :: root)
  | (nm, kids) :: rest => ((nm, n :: kids) :: rest, root)

/-- Close open elements until one with the given name has been
    closed; fuel is the stack depth. -/
def closeUntil (name : String) : Nat → List (String × List Node) → List Node →
    List (String × List Node) × List Node
  | 0, stack, root => (stack, root)
  | fuel + 1, stack, root =>
    match stack with
    | [] => ([], root)
    | (nm, kids) :: rest =>
      let sr := insertNode (Node.elem nm kids.reverse) rest root
      if nm == name then sr else closeUntil name fuel sr.1 sr.2

/-- Close every element still open at end of input. -/
def closeAll : Nat → List (String × List Node) → List Node → List Node
  | 0, _, root => root
  | fuel + 1, stack, root =>
    match stack with
    | [] => root
    | (nm, kids) :: rest =>
      let sr := insertNode (Node.elem nm kids.reverse) rest root
      closeAll fuel sr.1 sr.2

/-- Feed one token to the tree builder; a close tag with no matching
    open element is ignored. -/
def buildStep (sr : List (String × List Node) × List Node) (t : Tok) :
    List (String × List Node) × List Node :=
  match t with
  | Tok.textTok s => insertNode (Node.text s) sr.1 sr.2
  | Tok.skipTok => sr
  | Tok.openTag nm true => insertNode (Node.elem nm []) sr.1 sr.2
  | Tok.openTag nm false => ((nm, []) :: sr.1, sr.2)
  | Tok.closeTag nm =>
    if sr.1.any (fun p => p.1 == nm) then closeUntil nm sr.1.length sr.1 sr.2
    else sr

/-- Modelled from the spec: parse an HTML string into a tag tree,
    totally (malformed markup degrades rather than erroring). -/
def parseHtml (s : String) : List Node :=
  let sr := (tokenize s).foldl buildStep ([], [])
  (closeAll sr.1.length sr.1 sr.2).reverse

example :
    parseHtml "<h2>Intro</h2><h3>History</h3>" =
      [Node.elem "h2" [Node.text "Intro"], Node.elem "h3" [Node.text "History"]] := rfl
example :
    parseHtml "<div><H2 class=x>A</h2>" =
      [Node.elem "div" [Node.elem "h2" [Node.text "A"]]] := rfl
example : get_text (Node.elem "h2" [Node.text "His", Node.elem "i" [Node.text "tory"]]) =
    "History" := rfl

/-! The heading extractor, extract_headings at main.py lines 33-51,
    translated statement by statement.  The loop body can raise in
    Python (string indexing and int conversion), so it is embedded in
    Except; the loop is a left fold over the tags found. -/

/-- The tag-name list passed to find_all at main.py line 39. -/
def headingTagNames : List String :=
  ["h1", "h2", "h3", "h4", "h5", "h6"]

/-- One iteration of the loop at main.py lines 39-49: read the level
    from the second character of the tag name, take the stripped text,
    and keep the heading when the text is non-empty and does not
    contain the [edit] marker; the kept text then has [edit] removed
    and is stripped again (a no-op on the kept branch, exactly as in
    the source). -/
def stepHeading (headings : List (Nat × String)) (tag : Node) :
    Except String (List (Nat × String)) :=
  match charAt tag.name 1 with
  | Except.error e => Except.error e
  | Except.ok c =>
    match pyIntOfChar c with
    | Except.error e => Except.error e
    | Except.ok level =>
      if pyStrip (get_text tag) ≠ "" ∧
          hasSub "[edit]" (pyStrip (get_text tag)) = false then
        Except.ok (headings ++
          [(level, pyStrip (pyReplace (pyStrip (get_text tag)) "[edit]" ""))])
      else
        Except.ok headings

/-- extract_headings on an already parsed document: the fold of the
    loop body over the tags found in document order. -/
def extract_headingsDoc (doc : List Node) : Except String (List (Nat × String)) :=
  (find_all headingTagNames doc).foldlM stepHeading []

/-- extract_headings (main.py lines 33-51): parse, find the heading
    tags, and run the loop. -/
def extract_headings (html_content : String) : Except String (List (Nat × String)) :=
  extract_headingsDoc (parseHtml html_content)

/-- The per-tag result of the loop body as a total function: the pair
    the iteration appends, if any.  Used to state what the fold
    produces. -/
def keepHeading (tag : Node) : Option (Nat × String) :=
  match charAt tag.name 1 with
  | Except.error _ => none
  | Except.ok c =>
    match pyIntOfChar c with
    | Except.error _ => none
    | Except.ok level =>
      if pyStrip (get_text tag) ≠ "" ∧
          hasSub "[edit]" (pyStrip (get_text tag)) = false then
        some (level, pyStrip (pyReplace (pyStrip (get_text tag)) "[edit]" ""))
      else
        none

example : extract_headings "<h2>Intro</h2>" = Except.ok [(2, "Intro")] := rfl
example : extract_headings "" = Except.ok [] := rfl
example : extract_headings "<h2>History[edit]</h2>" = Except.ok [] := rfl

/-! The renderer, generate_markdown_outline at main.py lines 53-66.
    The source appends the literal string consisting of number sign,
    number sign, space, the word Contents and a newline, then one
    line per heading, and joins with a blank line. -/

/-- The line built for one heading at main.py lines 63-64: level
    repetitions of the number sign, a space, and the text. -/
def headingLine (p : Nat × String) : String :=
  String.mk (List.replicate p.1 '#') ++ " " ++ p.2

/-- generate_markdown_outline (main.py lines 53-66).  The country
    parameter is accepted and unused, exactly as in the source. -/
def generate_markdown_outline (country : String) (headings : List (Nat × String)) : String :=
  String.intercalate "\n\n" (["## Contents\n"] ++ headings.map headingLine)

example : generate_markdown_outline "France" [] = "## Contents\n" := rfl
example : generate_markdown_outline "France" [(2, "Intro")] = "## Contents\n\n\n## Intro" := rfl

/-! The URL built by fetch_wikipedia_page at main.py lines 22-23.
    The network request itself is an external effect and out of the
    embedding; the URL construction is pure and translated from the
    source, with urllib.parse.quote modelled from its documented
    behaviour (UTF-8 percent-encoding keeping unreserved characters
    and the slash). -/

/-- UTF-8 encoding of one character, as a list of byte values. -/
def utf8EncodeChar (c : Char) : List Nat :=
  if c.toNat < 128 then [c.toNat]
  else if c.toNat < 2048 then [192 + c.toNat / 64, 128 + c.toNat % 64]
  else if c.toNat < 65536 then
    [224 + c.toNat / 4096, 128 + c.toNat / 64 % 64, 128 + c.toNat % 64]
  else
    [240 + c.toNat / 262144, 128 + c.toNat / 4096 % 64,
      128 + c.toNat / 64 % 64, 128 + c.toNat % 64]

/-- The bytes urllib.parse.quote leaves unencoded with its default
    safe set: ASCII letters, digits, hyphen, period, underscore,
    tilde and the slash. -/
def quoteSafeByte (b : Nat) : Bool :=
  decide ((65 ≤ b ∧ b ≤ 90) ∨ (97 ≤ b ∧ b ≤ 122) ∨ (48 ≤ b ∧ b ≤ 57) ∨
    b = 45 ∨ b = 46 ∨ b = 95 ∨ b = 126 ∨ b = 47)

/-- Uppercase hexadecimal digit of a value below sixteen. -/
def hexUpper (n : Nat) : Char :=
  if n < 10 then Char.ofNat (48 + n) else Char.ofNat (55 + n)

/-- Percent-encode one byte, or keep it literal when safe. -/
def quoteByte (b : Nat) : String :=
  if quoteSafeByte b then String.mk [Char.ofNat b]
  else String.mk ['%', hexUpper (b / 16), hexUpper (b % 16)]

/-- urllib.parse.quote with its default safe set. -/
def urllibQuote (s : String) : String :=
  String.join (((s.data.map utf8EncodeChar).flatten).map quoteByte)

/-- The URL fetch_wikipedia_page requests (main.py lines 22-23):
    strip the country name, replace spaces with underscores, quote,
    and prefix the Wikipedia base. -/
def fetch_wikipedia_page_url (country : String) : String :=
  "https://en.wikipedia.org/wiki/" ++ urllibQuote (pyReplace (pyStrip country) " " "_")

example : fetch_wikipedia_page_url "United States" =
    "https://en.wikipedia.org/wiki/United_States" := rfl
example : fetch_wikipedia_page_url "Côte d\x27Ivoire" =
    "https://en.wikipedia.org/wiki/C%C3%B4te_d%27Ivoire" := rfl

/-! The request handler, get_country_outline at main.py lines 68-97.
    The outcome of the blocking fetch is the handler input: modelled
    from the spec, the external HTTP client either returns the body
    text, raises an HTTPError carrying the response status (from
    raise_for_status at main.py line 30), or raises some other
    exception (network failure and the like).  The handler is total:
    every outcome maps to a plain-text body. -/

/-- The possible outcomes of the upstream fetch, as seen by the
    try-except layering of the handler. -/
inductive FetchOutcome where
  | success (html : String)
  | httpError (status : Nat) (message : String)
  | otherFailure (message : String)

/-- get_country_outline (main.py lines 79-97): run the pipeline on
    success; on an HTTPError with status 404 report the missing page
    with the country name exactly as given; on any other HTTPError
    report a fetch error with the exception text; on any other
    exception report its text. -/
def get_country_outline (country : String) (fetched : FetchOutcome) : String :=
  match fetched with
  | FetchOutcome.success html =>
    match extract_headings html with
    | Except.ok headings => generate_markdown_outline country headings
    | Except.error e => "Error: " ++ e
  | FetchOutcome.httpError status message =>
    if status = 404 then
      "Error: Wikipedia page not found for \x27" ++ country ++ "\x27"
    else
      "Error fetching Wikipedia page: " ++ message
  | FetchOutcome.otherFailure message => "Error: " ++ message

example : get_country_outline "Atlantis" (FetchOutcome.httpError 404 "x") =
    "Error: Wikipedia page not found for \x27Atlantis\x27" := rfl
example : get_country_outline "X" (FetchOutcome.success "<h2>Intro</h2>") =
    "## Contents\n\n\n## Intro" := rfl

/-! Helper lemmas: basic facts about the Python string primitives,
    and the functional description of the extraction loop. -/

theorem listPre_append (l t : List Char) : listPre l (l ++ t) = true := by
  induction l with
  | nil => rfl
  | cons a as ih => simp [listPre, ih]

theorem dropWhile_head_false {α : Type} {p : α → Bool} {l t : List α} {c : α}
    (h : l.dropWhile p = c :: t) : p c = false := by
  induction l with
  | nil => simp [List.dropWhile] at h
  | cons a as ih =>
    rw [List.dropWhile_cons] at h
    by_cases hp : p a = true
    · exact ih (by simpa [hp] using h)
    · rw [if_neg hp] at h
      obtain ⟨rfl, -⟩ := List.cons.inj h
      simpa using hp

theorem dropWhile_of_head_false {α : Type} {p : α → Bool} {t : List α} {c : α}
    (h : p c = false) : (c :: t).dropWhile p = c :: t := by
  simp [List.dropWhile_cons, h]

theorem dropWhile_getLast {α : Type} {p : α → Bool} :
    ∀ l : List α, l.dropWhile p ≠ [] → (l.dropWhile p).getLast? = l.getLast?
  | [], h => absurd rfl h
  | a :: as, h => by
    by_cases hp : p a = true
    · have hd : (a :: as).dropWhile p = as.dropWhile p := by
        simp [List.dropWhile_cons, hp]
      rw [hd] at h ⊢
      rw [dropWhile_getLast as h]
      cases as with
      | nil => simp [List.dropWhile] at h
      | cons b bs => simp
    · simp [List.dropWhile_cons, hp]

theorem pyStripL_noEdge (l : List Char) :
    (∀ c, (pyStripL l).head? = some c → isPySpace c = false) ∧
    (∀ c, (pyStripL l).getLast? = some c → isPySpace c = false) := by
  constructor
  · intro c hc
    rw [pyStripL, List.head?_reverse] at hc
    have hne : (l.dropWhile isPySpace).reverse.dropWhile isPySpace ≠ [] := by
      intro e
      rw [e] at hc
      simp at hc
    rw [dropWhile_getLast _ hne, List.getLast?_reverse] at hc
    cases hA : l.dropWhile isPySpace with
    | nil => rw [hA] at hc; simp at hc
    | cons d ds =>
      rw [hA] at hc
      simp at hc
      rw [← hc]
      exact dropWhile_head_false hA
  · intro c hc
    rw [pyStripL, List.getLast?_reverse] at hc
    cases hB : (l.dropWhile isPySpace).reverse.dropWhile isPySpace with
    | nil => rw [hB] at hc; simp at hc
    | cons d ds =>
      rw [hB] at hc
      simp at hc
      rw [← hc]
      exact dropWhile_head_false hB

theorem pyStripL_of_noEdge (l : List Char)
    (h1 : ∀ c, l.head? = some c → isPySpace c = false)
    (h2 : ∀ c, l.getLast? = some c → isPySpace c = false) :
    pyStripL l = l := by
  have hA : l.dropWhile isPySpace = l := by
    cases l with
    | nil => rfl
    | cons a as => exact dropWhile_of_head_false (h1 a rfl)
  have hB : l.reverse.dropWhile isPySpace = l.reverse := by
    cases hr : l.reverse with
    | nil => rfl
    | cons a as =>
      apply dropWhile_of_head_false
      apply h2
      rw [← List.head?_reverse, hr]
      rfl
  rw [pyStripL, hA, hB, List.reverse_reverse]

theorem pyStripL_idem (l : List Char) : pyStripL (pyStripL l) = pyStripL l :=
  pyStripL_of_noEdge _ (pyStripL_noEdge l).1 (pyStripL_noEdge l).2

theorem pyStrip_pyStrip (s : String) : pyStrip (pyStrip s) = pyStrip s := by
  show String.mk (pyStripL (pyStripL s.data)) = String.mk (pyStripL s.data)
  rw [pyStripL_idem]

theorem pyReplaceFuel_of_not_sub (pat rep : List Char) :
    ∀ fuel l, hasSubL pat l = false → pyReplaceFuel pat rep fuel l = l := by
  intro fuel
  induction fuel with
  | zero => intro l h; cases l <;> rfl
  | succ f ih =>
    intro l h
    cases l with
    | nil => rfl
    | cons c t =>
      rw [hasSubL] at h
      rw [Bool.or_eq_false_iff] at h
      rw [pyReplaceFuel, if_neg, ih t h.2]
      intro hcon
      rw [h.1] at hcon
      exact Bool.false_ne_true hcon.2

theorem pyReplace_of_not_sub (s pat rep : String) (h : hasSub pat s = false) :
    pyReplace s pat rep = s := by
  rw [hasSub] at h
  rw [pyReplace, pyReplaceFuel_of_not_sub pat.data rep.data s.data.length s.data h]

mutual
theorem findAllN_eq (names : List String) (n : Node) :
    findAllN names n = (docOrderN n).filter (isTagIn names) := by
  cases n with
  | text s => simp [findAllN, docOrderN, isTagIn]
  | elem nm cs =>
    simp only [findAllN, docOrderN, List.filter_cons, isTagIn, findAllL_eq names cs]
    by_cases h : nm ∈ names <;> simp [h]
theorem findAllL_eq (names : List String) (l : List Node) :
    findAllL names l = (docOrderL l).filter (isTagIn names) := by
  cases l with
  | nil => simp [findAllL, docOrderL]
  | cons n ns =>
    simp [findAllL, docOrderL, findAllN_eq names n, findAllL_eq names ns]
end

theorem charAt_level_of_heading (nm : String) (h : headingTagNames.contains nm = true) :
    ∃ c level, charAt nm 1 = Except.ok c ∧ pyIntOfChar c = Except.ok level ∧
      1 ≤ level ∧ level ≤ 6 := by
  have hmem : nm = "h1" ∨ nm = "h2" ∨ nm = "h3" ∨ nm = "h4" ∨ nm = "h5" ∨ nm = "h6" := by
    simpa [headingTagNames] using h
  rcases hmem with rfl | rfl | rfl | rfl | rfl | rfl
  · exact ⟨'1', 1, rfl, rfl, by decide, by decide⟩
  · exact ⟨'2', 2, rfl, rfl, by decide, by decide⟩
  · exact ⟨'3', 3, rfl, rfl, by decide, by decide⟩
  · exact ⟨'4', 4, rfl, rfl, by decide, by decide⟩
  · exact ⟨'5', 5, rfl, rfl, by decide, by decide⟩
  · exact ⟨'6', 6, rfl, rfl, by decide, by decide⟩

theorem stepHeading_of_ok (acc : List (Nat × String)) (tag : Node) (c : Char) (level : Nat)
    (hc : charAt tag.name 1 = Except.ok c) (hl : pyIntOfChar c = Except.ok level) :
    stepHeading acc tag = Except.ok (acc ++ (keepHeading tag).toList) := by
  simp only [stepHeading, keepHeading, hc, hl]
  by_cases hg : pyStrip (get_text tag) ≠ "" ∧
      hasSub "[edit]" (pyStrip (get_text tag)) = false
  · rw [if_pos hg, if_pos hg]
    simp
  · rw [if_neg hg, if_neg hg]
    simp

theorem stepHeading_good (acc : List (Nat × String)) (tag : Node)
    (h : isTagIn headingTagNames tag = true) :
    stepHeading acc tag = Except.ok (acc ++ (keepHeading tag).toList) := by
  cases tag with
  | text s => simp [isTagIn] at h
  | elem nm cs =>
    obtain ⟨c, level, hc, hl, -, -⟩ :=
      charAt_level_of_heading nm (by simpa [isTagIn] using h)
    exact stepHeading_of_ok acc (Node.elem nm cs) c level hc hl

theorem foldlM_stepHeading :
    ∀ (l : List Node) (acc : List (Nat × String)),
      (∀ x ∈ l, isTagIn headingTagNames x = true) →
      List.foldlM stepHeading acc l = Except.ok (acc ++ l.filterMap keepHeading) := by
  intro l
  induction l with
  | nil =>
    intro acc _
    show Except.ok acc = Except.ok (acc ++ List.filterMap keepHeading [])
    simp
  | cons x xs ih =>
    intro acc hall
    rw [List.foldlM_cons, stepHeading_good acc x (hall x (by simp))]
    show List.foldlM stepHeading (acc ++ (keepHeading x).toList) xs = _
    rw [ih _ (fun y hy => hall y (List.mem_cons_of_mem x hy))]
    rw [List.filterMap_cons]
    cases keepHeading x <;> simp

theorem extract_headingsDoc_eq (doc : List Node) :
    extract_headingsDoc doc =
      Except.ok ((find_all headingTagNames doc).filterMap keepHeading) := by
  have hgood : ∀ x ∈ find_all headingTagNames doc, isTagIn headingTagNames x = true := by
    intro x hx
    rw [find_all, findAllL_eq] at hx
    exact (List.mem_filter.mp hx).2
  show List.foldlM stepHeading [] (find_all headingTagNames doc) = _
  rw [foldlM_stepHeading _ _ hgood, List.nil_append]

theorem keepHeading_inv (tag : Node) (level : Nat) (t : String)
    (hgood : isTagIn headingTagNames tag = true)
    (h : keepHeading tag = some (level, t)) :
    1 ≤ level ∧ level ≤ 6 ∧ t ≠ "" ∧ pyStrip t = t ∧
      hasSub "[edit]" t = false ∧ pyStrip (pyReplace t "[edit]" "") = t := by
  cases tag with
  | text s => simp [isTagIn] at hgood
  | elem nm cs =>
    obtain ⟨c, lv, hc, hl, hlo, hhi⟩ :=
      charAt_level_of_heading nm (by simpa [isTagIn] using hgood)
    simp only [keepHeading, Node.name, hc, hl] at h
    by_cases hg : pyStrip (get_text (Node.elem nm cs)) ≠ "" ∧
        hasSub "[edit]" (pyStrip (get_text (Node.elem nm cs))) = false
    · rw [if_pos hg] at h
      obtain ⟨rfl, rfl⟩ := Prod.mk.inj (Option.some.inj h)
      have hrep : pyReplace (pyStrip (get_text (Node.elem nm cs))) "[edit]" "" =
          pyStrip (get_text (Node.elem nm cs)) :=
        pyReplace_of_not_sub _ _ _ hg.2
      have ht : pyStrip (pyReplace (pyStrip (get_text (Node.elem nm cs))) "[edit]" "") =
          pyStrip (get_text (Node.elem nm cs)) := by
        rw [hrep, pyStrip_pyStrip]
      rw [ht]
      refine ⟨hlo, hhi, hg.1, pyStrip_pyStrip _, hg.2, ?_⟩
      rw [hrep, pyStrip_pyStrip]
    · rw [if_neg hg] at h
      exact absurd h (by simp)

theorem extract_mem_inv (doc : List Node) (p : Nat × String)
    (hp : p ∈ (find_all headingTagNames doc).filterMap keepHeading) :
    1 ≤ p.1 ∧ p.1 ≤ 6 ∧ p.2 ≠ "" ∧ pyStrip p.2 = p.2 ∧
      hasSub "[edit]" p.2 = false ∧ pyStrip (pyReplace p.2 "[edit]" "") = p.2 := by
  obtain ⟨tag, htag, hk⟩ := List.mem_filterMap.mp hp
  have hgood : isTagIn headingTagNames tag = true := by
    rw [find_all, findAllL_eq] at htag
    exact (List.mem_filter.mp htag).2
  obtain ⟨l, t⟩ := p
  exact keepHeading_inv tag l t hgood hk

theorem pyStripL_pad (l : List Char) :
    pyStripL (' ' :: (l ++ [' '])) = pyStripL l := by
  have hsp : isPySpace ' ' = true := rfl
  rw [pyStripL, pyStripL]
  rw [List.dropWhile_cons, if_pos hsp, List.dropWhile_append]
  by_cases hA : (l.dropWhile isPySpace).isEmpty = true
  · rw [if_pos hA]
    have h2 : l.dropWhile isPySpace = [] := by
      simpa [List.isEmpty_iff] using hA
    rw [h2]
    rfl
  · rw [if_neg hA]
    have h3 : (l.dropWhile isPySpace ++ [' ']).reverse =
        ' ' :: (l.dropWhile isPySpace).reverse := by
      simp
    rw [h3, List.dropWhile_cons, if_pos hsp]

theorem pyStrip_pad (s : String) : pyStrip (" " ++ s ++ " ") = pyStrip s := by
  have hd : (" " ++ s ++ " ").data = ' ' :: (s.data ++ [' ']) := by
    rw [String.data_append, String.data_append]
    rfl
  show String.mk (pyStripL ((" " ++ s ++ " ").data)) = String.mk (pyStripL s.data)
  rw [hd, pyStripL_pad]

/-- Boolean test that the first string begins the second; used to
    state the error-body properties. -/
def strBeg (p s : String) : Bool :=
  listPre p.data s.data

theorem strBeg_append (p t : String) : strBeg p (p ++ t) = true := by
  rw [strBeg, String.data_append]
  exact listPre_append p.data t.data

/-! The claims. -/

/-- C1: the specification expects a heading whose text contains the
    [edit] marker to be kept with the marker removed, so that the
    text History[edit] yields the heading (2, History); the guard at
    main.py line 46 instead skips every heading whose text contains
    [edit], leaving the marker-removal at line 48 unreachable for
    such texts.  This theorem evaluates the code at the failing
    input: the h2 tag with text History[edit] yields no heading at
    all, and a tag whose text is only [edit] also yields none. -/
theorem extract_headings_drops_history_edit :
    extract_headings "<h2>History[edit]</h2>" = Except.ok [] ∧
    extract_headings "<h2>[edit]</h2>" = Except.ok [] :=
  ⟨rfl, rfl⟩

/-- C2 counterexample: the header line is appended together with a
    trailing newline at main.py line 58, so rendering the empty
    heading sequence does not give the bare header string of the
    claim. -/
theorem generate_markdown_outline_empty_ne :
    generate_markdown_outline "France" [] ≠ "## Contents" := by
  decide

/-- C2 amended: the renderer joins the header line and the heading
    lines with a double newline, but the header line itself carries a
    trailing newline, so the empty outline is the header followed by
    a newline and three consecutive newline characters separate the
    header from the first heading line; each heading line is
    level-many number signs, a space, then the text. -/
theorem generate_markdown_outline_render :
    (∀ country hs, generate_markdown_outline country hs =
        String.intercalate "\n\n" ("## Contents\n" :: hs.map headingLine)) ∧
    generate_markdown_outline "X" [] = "## Contents\n" ∧
    generate_markdown_outline "X" [(2, "Intro")] = "## Contents\n\n\n## Intro" ∧
    generate_markdown_outline "X" [(1, "A"), (3, "B")] =
      "## Contents\n\n\n# A\n\n### B" :=
  ⟨fun _ _ => rfl, rfl, rfl, rfl⟩

/-- C3: when the upstream fetch fails with HTTP status 404 and the
    handler was invoked with country Atlantis, the body is exactly
    the not-found message with the country name inserted verbatim; a
    second instance with surrounding spaces confirms the name is not
    normalized in the message. -/
theorem handler_404_verbatim :
    get_country_outline "Atlantis" (FetchOutcome.httpError 404 "404 Client Error") =
      "Error: Wikipedia page not found for \x27Atlantis\x27" ∧
    get_country_outline " atlantis " (FetchOutcome.httpError 404 "404 Client Error") =
      "Error: Wikipedia page not found for \x27 atlantis \x27" :=
  ⟨rfl, rfl⟩

/-- C4: extraction is total: for every HTML input string, including
    empty and malformed markup, extract_headings returns a heading
    sequence and never an error. -/
theorem extract_headings_never_fails (html : String) :
    (extract_headings html).isOk = true := by
  show (extract_headingsDoc (parseHtml html)).isOk = true
  rw [extract_headingsDoc_eq]
  rfl

/-- C5: find_all yields exactly the heading elements of the document
    in document order (pre-order, depth-first), extraction is the
    in-order filterMap of the loop body over that sequence with no
    deduplication and no sorting, and the three-heading example
    yields exactly the claimed sequence. -/
theorem extract_headings_order :
    (∀ doc, find_all headingTagNames doc =
        (docOrderL doc).filter (isTagIn headingTagNames)) ∧
    (∀ doc, extract_headingsDoc doc =
        Except.ok ((find_all headingTagNames doc).filterMap keepHeading)) ∧
    extract_headings "<h2>Intro</h2><h3>History</h3><h2>Geography</h2>" =
      Except.ok [(2, "Intro"), (3, "History"), (2, "Geography")] :=
  ⟨fun doc => findAllL_eq headingTagNames doc, extract_headingsDoc_eq, rfl⟩

/-- C6: every heading produced by extraction has a level between one
    and six and text that is non-empty after stripping and after
    removing the [edit] substring and stripping again; and a heading
    tag containing only whitespace yields no heading. -/
theorem extract_headings_data_inv :
    (∀ html hs, extract_headings html = Except.ok hs → ∀ p ∈ hs,
        1 ≤ p.1 ∧ p.1 ≤ 6 ∧ pyStrip p.2 ≠ "" ∧
          pyStrip (pyReplace p.2 "[edit]" "") ≠ "") ∧
    extract_headings "<h2>   </h2>" = Except.ok [] := by
  constructor
  · intro html hs he p hp
    have he2 : extract_headingsDoc (parseHtml html) = Except.ok hs := he
    rw [extract_headingsDoc_eq] at he2
    have hhs := Except.ok.inj he2
    subst hhs
    rcases extract_mem_inv (parseHtml html) p hp with ⟨h1, h2, h3, h4, -, h6⟩
    refine ⟨h1, h2, ?_, ?_⟩
    · rw [h4]
      exact h3
    · rw [h6]
      exact h3
  · rfl

/-- Witness for C6 at a concrete run of the extractor. -/
theorem extract_headings_data_inv_witness :
    1 ≤ ((2 : Nat), "Intro").1 ∧ ((2 : Nat), "Intro").1 ≤ 6 ∧
      pyStrip ((2 : Nat), "Intro").2 ≠ "" ∧
      pyStrip (pyReplace ((2 : Nat), "Intro").2 "[edit]" "") ≠ "" :=
  extract_headings_data_inv.1 "<h2>Intro</h2>" [(2, "Intro")] rfl (2, "Intro")
    (by decide)

/-- C7: the fetcher URL is the Wikipedia base followed by the
    percent-encoded country name with surrounding whitespace
    stripped and spaces replaced by underscores; United States maps
    to the path segment United_States, and surrounding whitespace is
    removed before the substitution. -/
theorem fetch_wikipedia_page_url_spec :
    fetch_wikipedia_page_url "United States" =
      "https://en.wikipedia.org/wiki/United_States" ∧
    (∀ country, fetch_wikipedia_page_url (" " ++ country ++ " ") =
        fetch_wikipedia_page_url country) ∧
    (∀ country, fetch_wikipedia_page_url country =
        "https://en.wikipedia.org/wiki/" ++
          urllibQuote (pyReplace (pyStrip country) " " "_")) := by
  refine ⟨rfl, ?_, fun _ => rfl⟩
  intro country
  show "https://en.wikipedia.org/wiki/" ++
      urllibQuote (pyReplace (pyStrip (" " ++ country ++ " ")) " " "_") =
    fetch_wikipedia_page_url country
  rw [pyStrip_pad]
  rfl

/-- C8: every fetch failure is absorbed by the handler into a plain
    text body: an HTTPError with any status other than 404 yields a
    body beginning with the fetch-error prefix, and any other
    exception yields a body beginning with the generic error
    prefix. -/
theorem handler_catches_failures (country : String) (status : Nat) (message : String)
    (h : status ≠ 404) :
    strBeg "Error fetching Wikipedia page:"
        (get_country_outline country (FetchOutcome.httpError status message)) = true ∧
    strBeg "Error: "
        (get_country_outline country (FetchOutcome.otherFailure message)) = true := by
  constructor
  · show strBeg "Error fetching Wikipedia page:"
        (if status = 404 then "Error: Wikipedia page not found for \x27" ++ country ++ "\x27"
         else "Error fetching Wikipedia page: " ++ message) = true
    rw [if_neg h]
    have hsplit : "Error fetching Wikipedia page: " ++ message =
        "Error fetching Wikipedia page:" ++ (" " ++ message) := by
      rw [← String.append_assoc]
      rfl
    rw [hsplit]
    exact strBeg_append "Error fetching Wikipedia page:" (" " ++ message)
  · exact strBeg_append "Error: " message

/-- Witness for C8 at a concrete non-404 failure. -/
theorem handler_catches_failures_witness :
    strBeg "Error fetching Wikipedia page:"
        (get_country_outline "Vanuatu" (FetchOutcome.httpError 500 "500 Server Error")) = true ∧
    strBeg "Error: "
        (get_country_outline "Vanuatu" (FetchOutcome.otherFailure "500 Server Error")) = true :=
  handler_catches_failures "Vanuatu" 500 "500 Server Error" (by decide)

/-- C9: the renderer output is independent of its country argument:
    for any two country strings and any heading sequence the
    rendered outlines coincide, since the parameter is accepted but
    never used. -/
theorem generate_markdown_outline_country_blind (c1 c2 : String)
    (hs : List (Nat × String)) :
    generate_markdown_outline c1 hs = generate_markdown_outline c2 hs := rfl

/-- C10: no heading text in the extraction output contains the
    [edit] substring: a heading whose raw text contains it anywhere
    is excluded from the output entirely. -/
theorem extract_headings_no_edit (html : String) (hs : List (Nat × String))
    (he : extract_headings html = Except.ok hs) (p : Nat × String) (hp : p ∈ hs) :
    hasSub "[edit]" p.2 = false := by
  have he2 : extract_headingsDoc (parseHtml html) = Except.ok hs := he
  rw [extract_headingsDoc_eq] at he2
  have hhs := Except.ok.inj he2
  subst hhs
  exact (extract_mem_inv (parseHtml html) p hp).2.2.2.2.1

/-- Witness for C10 at a concrete run of the extractor. -/
theorem extract_headings_no_edit_witness :
    hasSub "[edit]" ((2 : Nat), "Intro").2 = false :=
  extract_headings_no_edit "<h2>Intro</h2>" [(2, "Intro")] rfl (2, "Intro")
    (by decide)
